import Mathlib

/-!
Shallow embedding of the AI Concierge admin console (`src/agent-studio.jsx`)
and, for the backend pieces that are documented but whose `app.py` source is
not in the repository snapshot, definitions modelled from the specification.

Training records are JavaScript object literals; we embed them as association
lists from field names to JavaScript values (a string or `null`), which keeps
the dynamic shape of the objects visible so that shape invariants are real
statements rather than typing artifacts.
-/

set_option autoImplicit false

namespace Concierge

/-- A JavaScript value stored in a training-record field: the console only
ever stores strings or `null` (`bad.trim() || null`). -/
inductive JVal where
  | str (s : String)
  | null
deriving DecidableEq, Repr

/-- A training record as a JavaScript object: an association list from field
names to values, in literal order. -/
abbrev JObj := List (String × JVal)

/-- Field lookup, mirroring JavaScript property access `o.k` (first binding
wins; absent fields give `none`, i.e. `undefined`). -/
def JObj.get (o : JObj) (k : String) : Option JVal :=
  (o.find? (fun p => p.1 == k)).map (fun p => p.2)

/-- String content of a field, with `""` for `null` or absent fields. -/
def JObj.getStr (o : JObj) (k : String) : String :=
  match o.get k with
  | some (JVal.str s) => s
  | _ => ""

/-- Characters of a string with leading and trailing whitespace removed. -/
def trimChars (l : List Char) : List Char :=
  ((l.dropWhile Char.isWhitespace).reverse.dropWhile Char.isWhitespace).reverse

/-- JavaScript `String.prototype.trim`, defined on the character list of the
string: drop whitespace from the front, then from the back. -/
def jsTrim (s : String) : String := ⟨trimChars s.data⟩

/-- Backend base URL, `src/agent-studio.jsx` line 3.  Defined in the source
but never referenced by any other code in the file. -/
def API : String := "http://localhost:8000"

/-- Agent identifier, `src/agent-studio.jsx` line 4. -/
def AGENT_ID : String := "vamos-events"

/-- JavaScript `Array.prototype.filter` with the element index made explicit:
`filterIdxFrom p n l` filters `l` whose first element sits at index `n`. -/
def filterIdxFrom {α : Type} (p : Nat → Bool) : Nat → List α → List α
  | _, [] => []
  | n, x :: xs => if p n then x :: filterIdxFrom p (n + 1) xs else filterIdxFrom p (n + 1) xs

/-- JavaScript `l.filter((_, j) => p(j))`. -/
def filterIdx {α : Type} (p : Nat → Bool) (l : List α) : List α :=
  filterIdxFrom p 0 l

/-- The record literal built by `RulesTab.add`:
`{ rule: newRule.trim(), added_at: <today> }` (line 70). -/
def ruleRecord (newRule today : String) : JObj :=
  [("rule", JVal.str (jsTrim newRule)), ("added_at", JVal.str today)]

/-- The record literal built by `FAQTab.add`:
`{ question: q.trim(), answer: a.trim(), added_at: <today> }` (line 97). -/
def faqRecord (q a today : String) : JObj :=
  [("question", JVal.str (jsTrim q)), ("answer", JVal.str (jsTrim a)), ("added_at", JVal.str today)]

/-- The record literal built by `ExamplesTab.add`:
`{ scenario: scenario.trim(), good_response: good.trim(), bad_response: bad.trim() || null, added_at: <today> }`
(line 126).  `bad.trim() || null` is `null` exactly when the trim is empty. -/
def exampleRecord (scenario good bad today : String) : JObj :=
  [("scenario", JVal.str (jsTrim scenario)),
   ("good_response", JVal.str (jsTrim good)),
   ("bad_response", if jsTrim bad ≠ "" then JVal.str (jsTrim bad) else JVal.null),
   ("added_at", JVal.str today)]

/-- The record literal built by `CorrectionsTab.add`:
`{ situation: sit.trim(), wrong: wrong.trim() || null, correction: fix.trim(), added_at: <today> }`
(line 161). -/
def correctionRecord (sit wrong fix today : String) : JObj :=
  [("situation", JVal.str (jsTrim sit)),
   ("wrong", if jsTrim wrong ≠ "" then JVal.str (jsTrim wrong) else JVal.null),
   ("correction", JVal.str (jsTrim fix)),
   ("added_at", JVal.str today)]

/-- `RulesTab.add` (line 70): guarded by `if (newRule.trim())` (non-blank),
appends one record with `setRules([...rules, {...}])`.  `today` stands for
`new Date().toISOString().slice(0, 10)`, the current date read at creation. -/
def RulesTab.add (rules : List JObj) (newRule today : String) : List JObj :=
  if jsTrim newRule ≠ "" then rules ++ [ruleRecord newRule today] else rules

/-- `RulesTab.remove` (line 71): `setRules(rules.filter((_, j) => j !== i))`. -/
def RulesTab.remove (rules : List JObj) (i : Nat) : List JObj :=
  filterIdx (fun j => j != i) rules

/-- `FAQTab.add` (line 97): guard `if (q.trim() && a.trim())`. -/
def FAQTab.add (faq : List JObj) (q a today : String) : List JObj :=
  if jsTrim q ≠ "" ∧ jsTrim a ≠ "" then faq ++ [faqRecord q a today] else faq

/-- `FAQTab.remove` (line 98). -/
def FAQTab.remove (faq : List JObj) (i : Nat) : List JObj :=
  filterIdx (fun j => j != i) faq

/-- `ExamplesTab.add` (line 126): guard `if (scenario.trim() && good.trim())`;
the bad response is optional. -/
def ExamplesTab.add (examples : List JObj) (scenario good bad today : String) : List JObj :=
  if jsTrim scenario ≠ "" ∧ jsTrim good ≠ "" then examples ++ [exampleRecord scenario good bad today]
  else examples

/-- `ExamplesTab.remove` (line 127). -/
def ExamplesTab.remove (examples : List JObj) (i : Nat) : List JObj :=
  filterIdx (fun j => j != i) examples

/-- `CorrectionsTab.add` (line 161): guard `if (sit.trim() && fix.trim())`;
the wrong response is optional. -/
def CorrectionsTab.add (corrections : List JObj) (sit wrong fix today : String) : List JObj :=
  if jsTrim sit ≠ "" ∧ jsTrim fix ≠ "" then corrections ++ [correctionRecord sit wrong fix today]
  else corrections

/-- `CorrectionsTab.remove` (line 162). -/
def CorrectionsTab.remove (corrections : List JObj) (i : Nat) : List JObj :=
  filterIdx (fun j => j != i) corrections

/-- The React state of `AgentStudio` (lines 233-241) that the claims concern:
the four training lists held by `useState`, plus the `saved` flag. -/
structure Studio where
  rules : List JObj
  faq : List JObj
  examples : List JObj
  corrections : List JObj
  saved : Bool
deriving DecidableEq, Repr

/-- Effect of the `setRules` state setter on the application state. -/
def setRules (st : Studio) (l : List JObj) : Studio := { st with rules := l }

/-- Effect of the `setFaq` state setter on the application state. -/
def setFaq (st : Studio) (l : List JObj) : Studio := { st with faq := l }

/-- Effect of the `setExamples` state setter on the application state. -/
def setExamples (st : Studio) (l : List JObj) : Studio := { st with examples := l }

/-- Effect of the `setCorrections` state setter on the application state. -/
def setCorrections (st : Studio) (l : List JObj) : Studio := { st with corrections := l }

/-- `RulesTab.add` as it acts on the whole application state: the tab holds
only `rules`/`setRules`, so the sole state write is through `setRules`. -/
def rulesAddOp (st : Studio) (newRule today : String) : Studio :=
  setRules st (RulesTab.add st.rules newRule today)

/-- `RulesTab.remove` acting on the whole application state. -/
def rulesRemoveOp (st : Studio) (i : Nat) : Studio :=
  setRules st (RulesTab.remove st.rules i)

/-- `FAQTab.add` acting on the whole application state. -/
def faqAddOp (st : Studio) (q a today : String) : Studio :=
  setFaq st (FAQTab.add st.faq q a today)

/-- `FAQTab.remove` acting on the whole application state. -/
def faqRemoveOp (st : Studio) (i : Nat) : Studio :=
  setFaq st (FAQTab.remove st.faq i)

/-- `ExamplesTab.add` acting on the whole application state. -/
def examplesAddOp (st : Studio) (scenario good bad today : String) : Studio :=
  setExamples st (ExamplesTab.add st.examples scenario good bad today)

/-- `ExamplesTab.remove` acting on the whole application state. -/
def examplesRemoveOp (st : Studio) (i : Nat) : Studio :=
  setExamples st (ExamplesTab.remove st.examples i)

/-- `CorrectionsTab.add` acting on the whole application state. -/
def correctionsAddOp (st : Studio) (sit wrong fix today : String) : Studio :=
  setCorrections st (CorrectionsTab.add st.corrections sit wrong fix today)

/-- `CorrectionsTab.remove` acting on the whole application state. -/
def correctionsRemoveOp (st : Studio) (i : Nat) : Studio :=
  setCorrections st (CorrectionsTab.remove st.corrections i)

/-- An outbound HTTP request, for recording the network effects of a handler. -/
structure HttpRequest where
  method : String
  url : String
  body : String
deriving DecidableEq, Repr

/-- Embedding of `save` (`src/agent-studio.jsx` line 241):
`const save = () => { setSaved(true); setTimeout(() => setSaved(false), 2000); };`.
The first component is the immediate new state; the second is the list of
HTTP requests the handler issues.  The body performs no network call at all
(no `fetch`; the `API` constant of line 3 is never used anywhere in the file),
so that list is empty: the training lists are not transmitted to the backend. -/
def save (st : Studio) : Studio × List HttpRequest :=
  ({ st with saved := true }, [])

/-- The callback `setTimeout` schedules 2000 ms after `save` runs. -/
def saveTimeoutCallback (st : Studio) : Studio :=
  { st with saved := false }

/-! ### Backend pieces modelled from the spec

The FastAPI backend `app.py` is referenced throughout the repository (the
deployment guide, the Dockerfile `CMD`) but its source is not part of the
snapshot; only the console and the guide are.  The prompt builder and the
health endpoint below are therefore modelled from the specification. -/

/-- The training data held in an agent's `training.json`. -/
structure Training where
  rules : List JObj
  faq : List JObj
  examples : List JObj
  corrections : List JObj
deriving DecidableEq, Repr

/-- Modelled from the spec: lines of the rules block, "verbatim, each as an
imperative directive" (spec section 4). -/
def rulesSection (rules : List JObj) : List String :=
  "RULES you must always follow:" :: rules.map (fun r => "- " ++ r.getStr "rule")

/-- Modelled from the spec: rendered lines of one FAQ pair, "verbatim
question/answer". -/
def faqLines (f : JObj) : List String :=
  ["Q: " ++ f.getStr "question", "A: " ++ f.getStr "answer"]

/-- Modelled from the spec: lines of the FAQ block. -/
def faqSection (faq : List JObj) : List String :=
  "FAQ, answer with these approved answers:" :: (faq.map faqLines).flatten

/-- Modelled from the spec: rendered lines of one example, "scenario +
good/bad pairs", the bad response present only when the record has one. -/
def exampleLines (e : JObj) : List String :=
  ["Scenario: " ++ e.getStr "scenario", "Good response: " ++ e.getStr "good_response"] ++
    (match e.get "bad_response" with
     | some (JVal.str s) => ["Bad response: " ++ s]
     | _ => [])

/-- Modelled from the spec: lines of the examples block. -/
def examplesSection (examples : List JObj) : List String :=
  "EXAMPLES of good and bad responses:" :: (examples.map exampleLines).flatten

/-- Modelled from the spec: rendered lines of one correction, "situation +
wrong + fix". -/
def correctionLines (c : JObj) : List String :=
  ("When: " ++ c.getStr "situation") ::
    (match c.get "wrong" with
     | some (JVal.str s) => ["Wrong: " ++ s]
     | _ => []) ++
    ["Do this instead: " ++ c.getStr "correction"]

/-- Modelled from the spec: lines of the corrections block, "given the
strongest closing emphasis" and placed last. -/
def correctionsSection (corrections : List JObj) : List String :=
  "CORRECTIONS, direct owner feedback with highest priority, these override everything above:" ::
    (corrections.map correctionLines).flatten

/-- Modelled from the spec: the backend system-prompt builder of `app.py`,
which is not under `src/`.  Spec section 4: "concatenate business config,
then rules (verbatim, each as an imperative directive), then FAQ pairs
(verbatim question/answer), then examples (scenario + good/bad pairs), then
corrections (situation + wrong + fix), in that fixed order, with corrections
given the strongest closing emphasis; regenerate on every request from
current file contents (no caching, no invalidation logic)".  The prompt is
modelled as its list of lines; being a plain function of the current config
and training contents, with no other argument, it embodies the absence of a
cache: each request recomputes it from what the files now hold. -/
def buildPrompt (config : List String) (t : Training) : List String :=
  config ++ rulesSection t.rules ++ faqSection t.faq ++
    examplesSection t.examples ++ correctionsSection t.corrections

/-- The backend configuration the health endpoint reports on. -/
structure ServerEnv where
  apiKey : Option String
  dataDir : String
  agents : List String
deriving DecidableEq, Repr

/-- The JSON body of the health response. -/
structure HealthResponse where
  status : String
  api_configured : Bool
  data_dir : String
  agents : List String
deriving DecidableEq, Repr

/-- Modelled from the spec: the `GET /api/health` handler of `app.py`, which
is not under `src/`.  Spec section 8 ("Health endpoint reports configured
agents and API-key presence accurately") and the documented example response
of the deployment guide: status "ok", `api_configured` true exactly when
`ANTHROPIC_API_KEY` is set, the `DATA_DIR` in use, and the list of agents
configured under it. -/
def healthHandler (env : ServerEnv) : HealthResponse :=
  { status := "ok"
    api_configured := env.apiKey.isSome
    data_dir := env.dataDir
    agents := env.agents }

/-- Whether the record has field `k` holding a string. -/
def hasStrField (o : JObj) (k : String) : Bool :=
  match o.get k with
  | some (JVal.str _) => true
  | _ => false

/-- Shape of a rule record: a `rule` field holding a string. -/
def ruleShape (o : JObj) : Bool := hasStrField o "rule"

/-- Shape of a FAQ record: `question` and `answer` fields holding strings. -/
def faqShape (o : JObj) : Bool := hasStrField o "question" && hasStrField o "answer"

/-- Shape of an example record: `scenario` and `good_response` fields holding
strings; `bad_response` is optional. -/
def exampleShape (o : JObj) : Bool := hasStrField o "scenario" && hasStrField o "good_response"

/-- Shape of a correction record: `situation` and `correction` fields holding
strings; `wrong` is optional. -/
def correctionShape (o : JObj) : Bool := hasStrField o "situation" && hasStrField o "correction"

/-- The shape invariant of the four training lists of the console state. -/
def shapeInv (st : Studio) : Bool :=
  st.rules.all ruleShape && st.faq.all faqShape &&
    st.examples.all exampleShape && st.corrections.all correctionShape

/-! ### Helper lemmas -/

/-- Filtering indices different from `k` keeps every element once all the
indices in play exceed `k`. -/
theorem filterIdxFrom_of_lt {α : Type} (k n : Nat) (l : List α) (h : k < n) :
    filterIdxFrom (fun j => j != k) n l = l := by
  induction l generalizing n with
  | nil => rfl
  | cons x xs ih =>
    have hne : (n != k) = true := by simp; omega
    simp [filterIdxFrom, hne, ih (n + 1) (Nat.lt_succ_of_lt h)]

/-- `filterIdxFrom` at starting index `n`, filtering out absolute index
`k = n + i`, removes exactly the `i`-th element of the remaining list. -/
theorem filterIdxFrom_remove {α : Type} (l : List α) (k i n : Nat)
    (hk : k = n + i) (h : i < l.length) :
    filterIdxFrom (fun j => j != k) n l = l.take i ++ l.drop (i + 1) := by
  induction l generalizing k i n with
  | nil => simp at h
  | cons x xs ih =>
    cases i with
    | zero =>
      have hcond : (n != k) = false := by simp; omega
      simp [filterIdxFrom, hcond, hk, filterIdxFrom_of_lt n (n + 1) xs (Nat.lt_succ_self n)]
    | succ m =>
      have hcond : (n != k) = true := by simp; omega
      have h' : m < xs.length := Nat.lt_of_succ_lt_succ h
      have ih' := ih k m (n + 1) (by omega) h'
      simp [filterIdxFrom, hcond, ih']

/-- JavaScript `l.filter((_, j) => j !== i)` at a valid index `i` is removal
of exactly the element at position `i`. -/
theorem filterIdx_remove {α : Type} (l : List α) (i : Nat) (h : i < l.length) :
    filterIdx (fun j => j != i) l = l.take i ++ l.drop (i + 1) :=
  filterIdxFrom_remove l i i 0 (by omega) h

/-- Index filtering only keeps elements of the original list, so any
pointwise `Bool` invariant survives it. -/
theorem all_filterIdxFrom {α : Type} (f : α → Bool) (p : Nat → Bool) (n : Nat) (l : List α)
    (h : l.all f = true) : (filterIdxFrom p n l).all f = true := by
  induction l generalizing n with
  | nil => rfl
  | cons x xs ih =>
    simp only [List.all_cons, Bool.and_eq_true] at h
    by_cases hp : p n = true
    · simp [filterIdxFrom, hp, List.all_cons, h.1, ih (n + 1) h.2]
    · simp only [filterIdxFrom, hp, if_false]
      exact ih (n + 1) h.2

/-- In a duplicate-free list, the element at position `i` does not survive
removal of position `i`. -/
theorem removed_not_mem {α : Type} (l : List α) (i : Nat) (hi : i < l.length)
    (hnd : l.Nodup) : l.get ⟨i, hi⟩ ∉ l.take i ++ l.drop (i + 1) := by
  have hsplit : l.take i ++ l.get ⟨i, hi⟩ :: l.drop (i + 1) = l := by
    rw [List.get_eq_getElem, ← List.drop_eq_getElem_cons hi, List.take_append_drop]
  have hnd' : (l.take i ++ l.get ⟨i, hi⟩ :: l.drop (i + 1)).Nodup := by
    rw [hsplit]; exact hnd
  exact (List.nodup_cons.mp (List.nodup_middle.mp hnd')).1

/-- An element of `l ++ [x]` that is not in `l` is `x`. -/
theorem eq_of_mem_append_singleton {α : Type} {l : List α} {x o : α}
    (ho : o ∈ l ++ [x]) (hno : o ∉ l) : o = x := by
  rcases List.mem_append.mp ho with h | h
  · exact absurd h hno
  · simpa using h

/-- Appending one element leaves every previously occupied position intact. -/
theorem getElem?_append_singleton {α : Type} (l : List α) (x : α) (i : Nat)
    (h : i < l.length) : (l ++ [x])[i]? = l[i]? := by
  rw [List.getElem?_append]
  simp [h]

/-- Lines contributed by one FAQ record are in the FAQ block. -/
theorem mem_faqSection {faq : List JObj} {f : JObj} (hf : f ∈ faq) {s : String}
    (hs : s ∈ faqLines f) : s ∈ faqSection faq :=
  List.mem_cons_of_mem _ (List.mem_flatten.mpr ⟨faqLines f, List.mem_map_of_mem _ hf, hs⟩)

/-- Lines contributed by one example record are in the examples block. -/
theorem mem_examplesSection {examples : List JObj} {e : JObj} (he : e ∈ examples) {s : String}
    (hs : s ∈ exampleLines e) : s ∈ examplesSection examples :=
  List.mem_cons_of_mem _ (List.mem_flatten.mpr ⟨exampleLines e, List.mem_map_of_mem _ he, hs⟩)

/-- Lines contributed by one correction record are in the corrections block. -/
theorem mem_correctionsSection {corrections : List JObj} {c : JObj} (hc : c ∈ corrections)
    {s : String} (hs : s ∈ correctionLines c) : s ∈ correctionsSection corrections :=
  List.mem_cons_of_mem _ (List.mem_flatten.mpr ⟨correctionLines c, List.mem_map_of_mem _ hc, hs⟩)

/-- The fix line of a correction is among its rendered lines, whatever the
optional wrong response holds. -/
theorem do_mem_correctionLines (c : JObj) :
    ("Do this instead: " ++ c.getStr "correction") ∈ correctionLines c := by
  unfold correctionLines
  rcases c.get "wrong" with _ | v
  · simp
  · cases v <;> simp

/-- A pointwise `Bool` invariant survives appending one element satisfying it. -/
theorem all_append_singleton {α : Type} (f : α → Bool) (l : List α) (x : α)
    (h : l.all f = true) (hx : f x = true) : (l ++ [x]).all f = true := by
  simp [List.all_append, h, hx]

/-- Adding a rule preserves the rule-record shape of the rules list. -/
theorem all_ruleShape_add (rules : List JObj) (r today : String)
    (h : rules.all ruleShape = true) : (RulesTab.add rules r today).all ruleShape = true := by
  unfold RulesTab.add
  by_cases hg : jsTrim r ≠ ""
  · rw [if_pos hg]; exact all_append_singleton _ _ _ h rfl
  · rw [if_neg hg]; exact h

/-- Adding a FAQ pair preserves the FAQ-record shape of the FAQ list. -/
theorem all_faqShape_add (faq : List JObj) (q a today : String)
    (h : faq.all faqShape = true) : (FAQTab.add faq q a today).all faqShape = true := by
  unfold FAQTab.add
  by_cases hg : jsTrim q ≠ "" ∧ jsTrim a ≠ ""
  · rw [if_pos hg]; exact all_append_singleton _ _ _ h rfl
  · rw [if_neg hg]; exact h

/-- Adding an example preserves the example-record shape of the examples list. -/
theorem all_exampleShape_add (examples : List JObj) (scen good bad today : String)
    (h : examples.all exampleShape = true) :
    (ExamplesTab.add examples scen good bad today).all exampleShape = true := by
  unfold ExamplesTab.add
  by_cases hg : jsTrim scen ≠ "" ∧ jsTrim good ≠ ""
  · rw [if_pos hg]; exact all_append_singleton _ _ _ h rfl
  · rw [if_neg hg]; exact h

/-- Adding a correction preserves the correction-record shape of the list. -/
theorem all_correctionShape_add (corrections : List JObj) (sit wrong fix today : String)
    (h : corrections.all correctionShape = true) :
    (CorrectionsTab.add corrections sit wrong fix today).all correctionShape = true := by
  unfold CorrectionsTab.add
  by_cases hg : jsTrim sit ≠ "" ∧ jsTrim fix ≠ ""
  · rw [if_pos hg]; exact all_append_singleton _ _ _ h rfl
  · rw [if_neg hg]; exact h

/-! ### Claim theorems -/

/-- C1: the claim states that adding a training record through the admin
console persists it so it appears in the next prompt preview, and that the
console's save operation transmits the current training lists to the backend
rather than only updating local UI state.  The code does the opposite: for
every application state, `save` issues no HTTP request at all (the `API`
constant is never used and the handler body contains no network call); its
entire effect is to set the local `saved` flag, which `saveTimeoutCallback`
clears again two seconds later.  Nothing is transmitted, so nothing added in
the console can reach the backend's prompt preview. -/
theorem save_issues_no_request (st : Studio) :
    (save st).2 = [] ∧
    (save st).1 = { st with saved := true } ∧
    (save st).1.rules = st.rules ∧ (save st).1.faq = st.faq ∧
    (save st).1.examples = st.examples ∧ (save st).1.corrections = st.corrections ∧
    saveTimeoutCallback (save st).1 = { st with saved := false } :=
  ⟨rfl, rfl, rfl, rfl, rfl, rfl, rfl⟩

/-- C7: the health endpoint (modelled from the spec, `app.py` being absent
from the snapshot) reports status `"ok"`, `api_configured` exactly when the
API key is present, the data directory and the configured agents, and on the
configuration documented in the deployment guide it produces exactly the
example response shown there. -/
theorem healthHandler_accurate (env : ServerEnv) :
    (healthHandler env).status = "ok" ∧
    (healthHandler env).api_configured = env.apiKey.isSome ∧
    (healthHandler env).data_dir = env.dataDir ∧
    (healthHandler env).agents = env.agents ∧
    healthHandler ⟨some "sk-ant-key", "/app/data", ["vamos-events"]⟩ =
      ⟨"ok", true, "/app/data", ["vamos-events"]⟩ ∧
    (healthHandler ⟨none, "/app/data", ["vamos-events"]⟩).api_configured = false :=
  ⟨rfl, rfl, rfl, rfl, rfl, rfl⟩

/-- C10: each tab's add and remove operations write state only through that
tab's own setter, so the other three training lists are untouched: for every
application state and every input, all twelve frame equations hold. -/
theorem tab_ops_frame (st : Studio)
    (r q a scen good bad sit wrong fix today : String) (i : Nat) :
    ((rulesAddOp st r today).faq = st.faq ∧
     (rulesAddOp st r today).examples = st.examples ∧
     (rulesAddOp st r today).corrections = st.corrections) ∧
    ((rulesRemoveOp st i).faq = st.faq ∧
     (rulesRemoveOp st i).examples = st.examples ∧
     (rulesRemoveOp st i).corrections = st.corrections) ∧
    ((faqAddOp st q a today).rules = st.rules ∧
     (faqAddOp st q a today).examples = st.examples ∧
     (faqAddOp st q a today).corrections = st.corrections) ∧
    ((faqRemoveOp st i).rules = st.rules ∧
     (faqRemoveOp st i).examples = st.examples ∧
     (faqRemoveOp st i).corrections = st.corrections) ∧
    ((examplesAddOp st scen good bad today).rules = st.rules ∧
     (examplesAddOp st scen good bad today).faq = st.faq ∧
     (examplesAddOp st scen good bad today).corrections = st.corrections) ∧
    ((examplesRemoveOp st i).rules = st.rules ∧
     (examplesRemoveOp st i).faq = st.faq ∧
     (examplesRemoveOp st i).corrections = st.corrections) ∧
    ((correctionsAddOp st sit wrong fix today).rules = st.rules ∧
     (correctionsAddOp st sit wrong fix today).faq = st.faq ∧
     (correctionsAddOp st sit wrong fix today).examples = st.examples) ∧
    ((correctionsRemoveOp st i).rules = st.rules ∧
     (correctionsRemoveOp st i).faq = st.faq ∧
     (correctionsRemoveOp st i).examples = st.examples) :=
  ⟨⟨rfl, rfl, rfl⟩, ⟨rfl, rfl, rfl⟩, ⟨rfl, rfl, rfl⟩, ⟨rfl, rfl, rfl⟩,
   ⟨rfl, rfl, rfl⟩, ⟨rfl, rfl, rfl⟩, ⟨rfl, rfl, rfl⟩, ⟨rfl, rfl, rfl⟩⟩

/-- C3: for every training list and every non-blank input, each tab's add
operation returns the old list with exactly one new record appended at the
end, and every pre-existing record is unchanged and keeps its position. -/
theorem add_appends_exactly_one
    (rules faq examples corrections : List JObj)
    (r q a scen good bad sit wrong fix today : String)
    (hr : jsTrim r ≠ "") (hq : jsTrim q ≠ "") (ha : jsTrim a ≠ "")
    (hs : jsTrim scen ≠ "") (hg : jsTrim good ≠ "")
    (hsit : jsTrim sit ≠ "") (hfix : jsTrim fix ≠ "") :
    RulesTab.add rules r today = rules ++ [ruleRecord r today] ∧
    FAQTab.add faq q a today = faq ++ [faqRecord q a today] ∧
    ExamplesTab.add examples scen good bad today =
      examples ++ [exampleRecord scen good bad today] ∧
    CorrectionsTab.add corrections sit wrong fix today =
      corrections ++ [correctionRecord sit wrong fix today] ∧
    (∀ i : Nat, i < rules.length → (RulesTab.add rules r today)[i]? = rules[i]?) ∧
    (∀ i : Nat, i < faq.length → (FAQTab.add faq q a today)[i]? = faq[i]?) ∧
    (∀ i : Nat, i < examples.length →
      (ExamplesTab.add examples scen good bad today)[i]? = examples[i]?) ∧
    (∀ i : Nat, i < corrections.length →
      (CorrectionsTab.add corrections sit wrong fix today)[i]? = corrections[i]?) := by
  have h1 : RulesTab.add rules r today = rules ++ [ruleRecord r today] := if_pos hr
  have h2 : FAQTab.add faq q a today = faq ++ [faqRecord q a today] := if_pos ⟨hq, ha⟩
  have h3 : ExamplesTab.add examples scen good bad today =
      examples ++ [exampleRecord scen good bad today] := if_pos ⟨hs, hg⟩
  have h4 : CorrectionsTab.add corrections sit wrong fix today =
      corrections ++ [correctionRecord sit wrong fix today] := if_pos ⟨hsit, hfix⟩
  refine ⟨h1, h2, h3, h4, ?_, ?_, ?_, ?_⟩ <;> intro i hi
  · rw [h1]; exact getElem?_append_singleton rules _ i hi
  · rw [h2]; exact getElem?_append_singleton faq _ i hi
  · rw [h3]; exact getElem?_append_singleton examples _ i hi
  · rw [h4]; exact getElem?_append_singleton corrections _ i hi

/-- Concrete instance of `add_appends_exactly_one` at non-blank inputs. -/
theorem add_appends_exactly_one_witness :
    RulesTab.add [] "be kind" "2026-02-08" = [] ++ [ruleRecord "be kind" "2026-02-08"] :=
  (add_appends_exactly_one [] [] [] [] "be kind" "q" "a" "s" "g" "" "w" "" "f" "2026-02-08"
    (by decide) (by decide) (by decide) (by decide) (by decide) (by decide) (by decide)).1

/-- C5: for every training list and every valid index `i`, the remove
operation deletes exactly the record at position `i`: the result is the
prefix before `i` followed by the suffix after `i` (so all other records
keep their relative order), the length drops by one, and when the list has
no duplicate records the removed record is gone from the result, hence from
anything (such as a prompt preview) built from it. -/
theorem remove_deletes_exactly_index
    (rules faq examples corrections : List JObj) (i j k m : Nat)
    (hi : i < rules.length) (hj : j < faq.length)
    (hk : k < examples.length) (hm : m < corrections.length) :
    (RulesTab.remove rules i = rules.take i ++ rules.drop (i + 1) ∧
     (RulesTab.remove rules i).length + 1 = rules.length ∧
     (rules.Nodup → rules.get ⟨i, hi⟩ ∉ RulesTab.remove rules i)) ∧
    (FAQTab.remove faq j = faq.take j ++ faq.drop (j + 1) ∧
     (FAQTab.remove faq j).length + 1 = faq.length ∧
     (faq.Nodup → faq.get ⟨j, hj⟩ ∉ FAQTab.remove faq j)) ∧
    (ExamplesTab.remove examples k = examples.take k ++ examples.drop (k + 1) ∧
     (ExamplesTab.remove examples k).length + 1 = examples.length ∧
     (examples.Nodup → examples.get ⟨k, hk⟩ ∉ ExamplesTab.remove examples k)) ∧
    (CorrectionsTab.remove corrections m = corrections.take m ++ corrections.drop (m + 1) ∧
     (CorrectionsTab.remove corrections m).length + 1 = corrections.length ∧
     (corrections.Nodup → corrections.get ⟨m, hm⟩ ∉ CorrectionsTab.remove corrections m)) := by
  refine ⟨⟨filterIdx_remove rules i hi, ?_, ?_⟩, ⟨filterIdx_remove faq j hj, ?_, ?_⟩,
    ⟨filterIdx_remove examples k hk, ?_, ?_⟩, ⟨filterIdx_remove corrections m hm, ?_, ?_⟩⟩
  · rw [RulesTab.remove, filterIdx_remove rules i hi]; simp; omega
  · intro hnd; rw [RulesTab.remove, filterIdx_remove rules i hi]
    exact removed_not_mem rules i hi hnd
  · rw [FAQTab.remove, filterIdx_remove faq j hj]; simp; omega
  · intro hnd; rw [FAQTab.remove, filterIdx_remove faq j hj]
    exact removed_not_mem faq j hj hnd
  · rw [ExamplesTab.remove, filterIdx_remove examples k hk]; simp; omega
  · intro hnd; rw [ExamplesTab.remove, filterIdx_remove examples k hk]
    exact removed_not_mem examples k hk hnd
  · rw [CorrectionsTab.remove, filterIdx_remove corrections m hm]; simp; omega
  · intro hnd; rw [CorrectionsTab.remove, filterIdx_remove corrections m hm]
    exact removed_not_mem corrections m hm hnd

/-- Concrete instance of `remove_deletes_exactly_index` on two-element
lists, removing index 0. -/
theorem remove_deletes_exactly_index_witness :
    RulesTab.remove [ruleRecord "x" "d", ruleRecord "y" "d"] 0 =
      ([ruleRecord "x" "d", ruleRecord "y" "d"].take 0 ++
        [ruleRecord "x" "d", ruleRecord "y" "d"].drop 1) :=
  (remove_deletes_exactly_index
    [ruleRecord "x" "d", ruleRecord "y" "d"] [faqRecord "q" "a" "d"]
    [exampleRecord "s" "g" "" "d"] [correctionRecord "w" "" "f" "d"]
    0 0 0 0 (by decide) (by decide) (by decide) (by decide)).1.1

/-- C8: an add with any required input blank or whitespace-only leaves the
corresponding training list completely unchanged. -/
theorem add_blank_is_noop
    (rules faq examples corrections : List JObj)
    (r q a scen good bad sit wrong fix today : String)
    (hr : jsTrim r = "")
    (hqa : jsTrim q = "" ∨ jsTrim a = "")
    (hsg : jsTrim scen = "" ∨ jsTrim good = "")
    (hsf : jsTrim sit = "" ∨ jsTrim fix = "") :
    RulesTab.add rules r today = rules ∧
    FAQTab.add faq q a today = faq ∧
    ExamplesTab.add examples scen good bad today = examples ∧
    CorrectionsTab.add corrections sit wrong fix today = corrections := by
  refine ⟨if_neg ?_, if_neg ?_, if_neg ?_, if_neg ?_⟩
  · simp [hr]
  · rcases hqa with h | h <;> simp [h]
  · rcases hsg with h | h <;> simp [h]
  · rcases hsf with h | h <;> simp [h]

/-- Concrete instance of `add_blank_is_noop` with whitespace-only and empty
inputs. -/
theorem add_blank_is_noop_witness :
    RulesTab.add [ruleRecord "x" "d"] "   " "2026-02-08" = [ruleRecord "x" "d"] :=
  (add_blank_is_noop [ruleRecord "x" "d"] [] [] [] "   " "" "a" " " "g" "b" "w" "" "" "2026-02-08"
    (by decide) (Or.inl (by decide)) (Or.inl (by decide)) (Or.inr (by decide))).1

/-- C4: for every input that passes the non-blank guard, every record newly
created by one of the four add operations (a record of the result that was
not already in the list) carries an `added_at` field holding `today`, the
current date read at creation time. -/
theorem add_stamps_creation_date
    (rules faq examples corrections : List JObj)
    (r q a scen good bad sit wrong fix today : String)
    (hr : jsTrim r ≠ "") (hq : jsTrim q ≠ "") (ha : jsTrim a ≠ "")
    (hs : jsTrim scen ≠ "") (hg : jsTrim good ≠ "")
    (hsit : jsTrim sit ≠ "") (hfix : jsTrim fix ≠ "") :
    (∀ o ∈ RulesTab.add rules r today, o ∉ rules →
      o.get "added_at" = some (JVal.str today)) ∧
    (∀ o ∈ FAQTab.add faq q a today, o ∉ faq →
      o.get "added_at" = some (JVal.str today)) ∧
    (∀ o ∈ ExamplesTab.add examples scen good bad today, o ∉ examples →
      o.get "added_at" = some (JVal.str today)) ∧
    (∀ o ∈ CorrectionsTab.add corrections sit wrong fix today, o ∉ corrections →
      o.get "added_at" = some (JVal.str today)) := by
  refine ⟨?_, ?_, ?_, ?_⟩ <;> intro o ho hno
  · rw [RulesTab.add, if_pos hr] at ho
    rw [eq_of_mem_append_singleton ho hno]; rfl
  · rw [FAQTab.add, if_pos ⟨hq, ha⟩] at ho
    rw [eq_of_mem_append_singleton ho hno]; rfl
  · rw [ExamplesTab.add, if_pos ⟨hs, hg⟩] at ho
    rw [eq_of_mem_append_singleton ho hno]; rfl
  · rw [CorrectionsTab.add, if_pos ⟨hsit, hfix⟩] at ho
    rw [eq_of_mem_append_singleton ho hno]; rfl

/-- Concrete instance of `add_stamps_creation_date`: the record created from
a non-blank rule carries the creation date. -/
theorem add_stamps_creation_date_witness :
    (ruleRecord "be kind" "2026-02-08").get "added_at" = some (JVal.str "2026-02-08") :=
  (add_stamps_creation_date [] [] [] [] "be kind" "q" "a" "s" "g" "" "w" "" "f" "2026-02-08"
    (by decide) (by decide) (by decide) (by decide) (by decide) (by decide) (by decide)).1
    (ruleRecord "be kind" "2026-02-08") (by decide) (by decide)

/-- C6: every operation of the console, add or remove on any tab, and
whatever its input, preserves the shape invariant of the training lists:
rules keep a string `rule` field, FAQ records keep `question` and `answer`,
examples keep `scenario` and `good_response` (with `bad_response` optional),
corrections keep `situation` and `correction` (with `wrong` optional). -/
theorem ops_preserve_shape
    (st : Studio) (h : shapeInv st = true)
    (r q a scen good bad sit wrong fix today : String) (i : Nat) :
    shapeInv (rulesAddOp st r today) = true ∧
    shapeInv (faqAddOp st q a today) = true ∧
    shapeInv (examplesAddOp st scen good bad today) = true ∧
    shapeInv (correctionsAddOp st sit wrong fix today) = true ∧
    shapeInv (rulesRemoveOp st i) = true ∧
    shapeInv (faqRemoveOp st i) = true ∧
    shapeInv (examplesRemoveOp st i) = true ∧
    shapeInv (correctionsRemoveOp st i) = true := by
  obtain ⟨rl, fq, ex, co, sv⟩ := st
  simp only [shapeInv, Bool.and_eq_true] at h
  obtain ⟨⟨⟨h1, h2⟩, h3⟩, h4⟩ := h
  refine ⟨?_, ?_, ?_, ?_, ?_, ?_, ?_, ?_⟩ <;>
    simp only [rulesAddOp, faqAddOp, examplesAddOp, correctionsAddOp, rulesRemoveOp,
      faqRemoveOp, examplesRemoveOp, correctionsRemoveOp, setRules, setFaq, setExamples,
      setCorrections, shapeInv, Bool.and_eq_true]
  · exact ⟨⟨⟨all_ruleShape_add rl r today h1, h2⟩, h3⟩, h4⟩
  · exact ⟨⟨⟨h1, all_faqShape_add fq q a today h2⟩, h3⟩, h4⟩
  · exact ⟨⟨⟨h1, h2⟩, all_exampleShape_add ex scen good bad today h3⟩, h4⟩
  · exact ⟨⟨⟨h1, h2⟩, h3⟩, all_correctionShape_add co sit wrong fix today h4⟩
  · exact ⟨⟨⟨all_filterIdxFrom _ _ _ rl h1, h2⟩, h3⟩, h4⟩
  · exact ⟨⟨⟨h1, all_filterIdxFrom _ _ _ fq h2⟩, h3⟩, h4⟩
  · exact ⟨⟨⟨h1, h2⟩, all_filterIdxFrom _ _ _ ex h3⟩, h4⟩
  · exact ⟨⟨⟨h1, h2⟩, h3⟩, all_filterIdxFrom _ _ _ co h4⟩

/-- Concrete instance of `ops_preserve_shape`: adding a rule to a well-shaped
state keeps the state well shaped. -/
theorem ops_preserve_shape_witness :
    shapeInv (rulesAddOp ⟨[ruleRecord "x" "d"], [], [], [], false⟩ "y" "d") = true :=
  (ops_preserve_shape ⟨[ruleRecord "x" "d"], [], [], [], false⟩ (by decide)
    "y" "q" "a" "s" "g" "" "w" "" "f" "d" 0).1

/-- C9: every record newly added through the console stores its text fields
as the whitespace-trimmed, non-empty input, and its optional fields (an
example's `bad_response`, a correction's `wrong`) as `null` when the input is
blank, never as an empty string. -/
theorem add_normalizes_fields
    (rules faq examples corrections : List JObj)
    (r q a scen good bad sit wrong fix today : String)
    (hr : jsTrim r ≠ "") (hq : jsTrim q ≠ "") (ha : jsTrim a ≠ "")
    (hs : jsTrim scen ≠ "") (hg : jsTrim good ≠ "")
    (hsit : jsTrim sit ≠ "") (hfix : jsTrim fix ≠ "") :
    (∀ o ∈ RulesTab.add rules r today, o ∉ rules →
      o.get "rule" = some (JVal.str (jsTrim r)) ∧ jsTrim r ≠ "") ∧
    (∀ o ∈ FAQTab.add faq q a today, o ∉ faq →
      o.get "question" = some (JVal.str (jsTrim q)) ∧
      o.get "answer" = some (JVal.str (jsTrim a)) ∧ jsTrim q ≠ "" ∧ jsTrim a ≠ "") ∧
    (∀ o ∈ ExamplesTab.add examples scen good bad today, o ∉ examples →
      o.get "scenario" = some (JVal.str (jsTrim scen)) ∧
      o.get "good_response" = some (JVal.str (jsTrim good)) ∧
      jsTrim scen ≠ "" ∧ jsTrim good ≠ "" ∧
      (jsTrim bad = "" → o.get "bad_response" = some JVal.null) ∧
      o.get "bad_response" ≠ some (JVal.str "")) ∧
    (∀ o ∈ CorrectionsTab.add corrections sit wrong fix today, o ∉ corrections →
      o.get "situation" = some (JVal.str (jsTrim sit)) ∧
      o.get "correction" = some (JVal.str (jsTrim fix)) ∧
      jsTrim sit ≠ "" ∧ jsTrim fix ≠ "" ∧
      (jsTrim wrong = "" → o.get "wrong" = some JVal.null) ∧
      o.get "wrong" ≠ some (JVal.str "")) := by
  refine ⟨?_, ?_, ?_, ?_⟩ <;> intro o ho hno
  · rw [RulesTab.add, if_pos hr] at ho
    rw [eq_of_mem_append_singleton ho hno]
    exact ⟨rfl, hr⟩
  · rw [FAQTab.add, if_pos ⟨hq, ha⟩] at ho
    rw [eq_of_mem_append_singleton ho hno]
    exact ⟨rfl, rfl, hq, ha⟩
  · rw [ExamplesTab.add, if_pos ⟨hs, hg⟩] at ho
    rw [eq_of_mem_append_singleton ho hno]
    have hbad : (exampleRecord scen good bad today).get "bad_response" =
        some (if jsTrim bad ≠ "" then JVal.str (jsTrim bad) else JVal.null) := rfl
    refine ⟨rfl, rfl, hs, hg, ?_, ?_⟩
    · intro hb
      rw [hbad, if_neg (by simp [hb])]
    · rw [hbad]
      by_cases hb : jsTrim bad = ""
      · rw [if_neg (by simp [hb])]; simp
      · rw [if_pos hb]; simp [hb]
  · rw [CorrectionsTab.add, if_pos ⟨hsit, hfix⟩] at ho
    rw [eq_of_mem_append_singleton ho hno]
    have hwrong : (correctionRecord sit wrong fix today).get "wrong" =
        some (if jsTrim wrong ≠ "" then JVal.str (jsTrim wrong) else JVal.null) := rfl
    refine ⟨rfl, rfl, hsit, hfix, ?_, ?_⟩
    · intro hw
      rw [hwrong, if_neg (by simp [hw])]
    · rw [hwrong]
      by_cases hw : jsTrim wrong = ""
      · rw [if_neg (by simp [hw])]; simp
      · rw [if_pos hw]; simp [hw]

/-- Concrete instance of `add_normalizes_fields`: an example added with an
untrimmed scenario and a blank bad response stores the trimmed scenario and a
`null` bad response. -/
theorem add_normalizes_fields_witness :
    (exampleRecord " intro call " "offer a consult" "  " "2026-02-08").get "scenario" =
      some (JVal.str "intro call") ∧
    (exampleRecord " intro call " "offer a consult" "  " "2026-02-08").get "bad_response" =
      some JVal.null := by
  have h := (add_normalizes_fields [] [] [] [] "r" "q" "a" " intro call " "offer a consult"
    "  " "w" "" "f" "2026-02-08" (by decide) (by decide) (by decide) (by decide) (by decide)
    (by decide) (by decide)).2.2.1
    (exampleRecord " intro call " "offer a consult" "  " "2026-02-08") (by decide) (by decide)
  exact ⟨by rw [h.1]; decide, h.2.2.2.2.1 (by decide)⟩

/-- C2: the system prompt (modelled from the spec, `app.py` being absent from
the snapshot) is exactly the concatenation, in this fixed order, of the
business config, the rules block, the FAQ block, the examples block and the
closing corrections block; every record of the current training data appears
verbatim in it; and, being a pure function of the current contents with no
cache, a prompt built right after a record is added already contains that
record. -/
theorem prompt_fixed_order_verbatim (config : List String) (t : Training) :
    buildPrompt config t =
      config ++ rulesSection t.rules ++ faqSection t.faq ++
        examplesSection t.examples ++ correctionsSection t.corrections ∧
    (∀ r ∈ t.rules, ("- " ++ r.getStr "rule") ∈ buildPrompt config t) ∧
    (∀ f ∈ t.faq, ("Q: " ++ f.getStr "question") ∈ buildPrompt config t ∧
      ("A: " ++ f.getStr "answer") ∈ buildPrompt config t) ∧
    (∀ e ∈ t.examples, ("Scenario: " ++ e.getStr "scenario") ∈ buildPrompt config t ∧
      ("Good response: " ++ e.getStr "good_response") ∈ buildPrompt config t) ∧
    (∀ c ∈ t.corrections, ("When: " ++ c.getStr "situation") ∈ buildPrompt config t ∧
      ("Do this instead: " ++ c.getStr "correction") ∈ buildPrompt config t) ∧
    (∀ nr nd : String, jsTrim nr ≠ "" →
      ("- " ++ (ruleRecord nr nd).getStr "rule") ∈
        buildPrompt config ⟨RulesTab.add t.rules nr nd, t.faq, t.examples, t.corrections⟩) := by
  have memR : ∀ (tr : Training) (s : String), s ∈ rulesSection tr.rules →
      s ∈ buildPrompt config tr := fun tr s hs =>
    List.mem_append_left _ (List.mem_append_left _ (List.mem_append_left _
      (List.mem_append_right _ hs)))
  have memF : ∀ (s : String), s ∈ faqSection t.faq → s ∈ buildPrompt config t := fun s hs =>
    List.mem_append_left _ (List.mem_append_left _ (List.mem_append_right _ hs))
  have memE : ∀ (s : String), s ∈ examplesSection t.examples →
      s ∈ buildPrompt config t := fun s hs =>
    List.mem_append_left _ (List.mem_append_right _ hs)
  have memC : ∀ (s : String), s ∈ correctionsSection t.corrections →
      s ∈ buildPrompt config t := fun s hs =>
    List.mem_append_right _ hs
  refine ⟨rfl, ?_, ?_, ?_, ?_, ?_⟩
  · intro r hr
    exact memR t _ (List.mem_cons_of_mem _ (List.mem_map_of_mem _ hr))
  · intro f hf
    exact ⟨memF _ (mem_faqSection hf (by simp [faqLines])),
      memF _ (mem_faqSection hf (by simp [faqLines]))⟩
  · intro e he
    exact ⟨memE _ (mem_examplesSection he (by simp [exampleLines])),
      memE _ (mem_examplesSection he (List.mem_append_left _ (by simp)))⟩
  · intro c hc
    exact ⟨memC _ (mem_correctionsSection hc (List.mem_cons_self _ _)),
      memC _ (mem_correctionsSection hc (do_mem_correctionLines c))⟩
  · intro nr nd hg
    have hadd : RulesTab.add t.rules nr nd = t.rules ++ [ruleRecord nr nd] := if_pos hg
    refine memR ⟨RulesTab.add t.rules nr nd, t.faq, t.examples, t.corrections⟩ _
      (List.mem_cons_of_mem _ (List.mem_map_of_mem _ ?_))
    rw [hadd]
    exact List.mem_append_right _ (by simp)

/-- Concrete instance of `prompt_fixed_order_verbatim`: a stored rule shows
up verbatim as a line of the built prompt. -/
theorem prompt_fixed_order_verbatim_witness :
    ("- " ++ JObj.getStr [("rule", JVal.str "be kind")] "rule") ∈
      buildPrompt ["You are the concierge for a business."]
        ⟨[[("rule", JVal.str "be kind")]], [], [], []⟩ :=
  (prompt_fixed_order_verbatim ["You are the concierge for a business."]
    ⟨[[("rule", JVal.str "be kind")]], [], [], []⟩).2.1 [("rule", JVal.str "be kind")] (by simp)

end Concierge
